import Mathlib

/-!
Shallow embedding of s3collapse.py and proofs about it.

Conventions of the embedding:
* Python byte strings are `List Nat` (one `Nat` per byte); Python `str` values
  (key names, prefixes, error labels) are `List Char`.
* The S3 bucket is a list of objects; `s3bucket.list(prefix)` is a filter on
  key names.  An object's `size` is the store-reported metadata size and its
  `content` the bytes actually downloaded by `get_contents_to_file`; the two
  are kept independent, exactly as in the code, so that the integrity checks
  of `collapse` are meaningful.
* The value returned by `set_contents_from_filename` (the store-reported size
  of the uploaded object, possibly absent) is a parameter `putReport` of the
  model, matching the spec's store interface `put -> storedSize | null`.
* A Python run of `collapse` is summarised by a `CollapseRun` record: whether
  the local accumulation file was created, its content on disk when the call
  returns or the exception propagates, the uploads performed, the source keys
  deleted, and the outcome (`none` = normal return, `some e` = the exception
  raised).
-/

/-- Source object of the store: key name, store-reported size, byte content. -/
structure S3Obj where
  name : List Char
  size : Nat
  content : List Nat
deriving DecidableEq

/-- Model of `s3bucket.list(inPrefix)`: all objects whose key starts with the
given match string, in bucket order (boto lists keys by prefix). -/
def listKeys (bucket : List S3Obj) (pfx : List Char) : List S3Obj :=
  bucket.filter (fun o => pfx.isPrefixOf o.name)

/-- Model of `isGzip(fd, fn)` (s3collapse.py lines 137-173).  `fd.read(1)`
twice from position 0 is the first two bytes of `content` (a `read` past the
end returns the empty bytes object and the comparison fails, which the
two-cons pattern reproduces).  The extension check is Python
`fn[-3:len(fn)] == '.gz'`, i.e. the last three characters (or the whole
string when shorter); it is skipped (treated as true) when no file name is
supplied. -/
def isGzip (content : List Nat) (fn : Option (List Char)) : Bool :=
  let hasBytes :=
    match content with
    | b1 :: b2 :: _ => b1 == 0x1f && b2 == 0x8b
    | _ => false
  let hasExtension :=
    match fn with
    | some s => s.drop (s.length - 3) == ".gz".toList
    | none => true
  hasBytes && hasExtension

/-- Concatenation of the byte contents of a list of objects, in order. -/
def concatContents : List S3Obj → List Nat
  | [] => []
  | o :: os => o.content ++ concatContents os

/-- Exceptions `collapse` can raise (s3collapse.py lines 62, 70, 77, 88),
carrying the data interpolated into the corresponding Python message. -/
inductive CollapseError where
  | mixedEncoding (name : List Char) (fileType : List Char) (filesType : List Char)
  | sizeCeiling (outMaxSize : Nat)
  | sizeMismatchLocal (outSize : Nat) (inSize : Nat)
  | sizeMismatchUpload (outKeySize : Nat) (outSize : Nat)
deriving DecidableEq

/-- Outcome of the download-and-concatenate `for` loop of `collapse`
(lines 42-71): normal completion with the accumulated `inSize` counter and
accumulation-file content, the mixed-encoding exception (file left on disk
with the bytes appended so far), or the size-ceiling exception (file already
removed by line 69). -/
inductive LoopOut where
  | ok (inSize : Nat) (acc : List Nat)
  | mixed (name : List Char) (fileType : List Char) (filesType : List Char) (acc : List Nat)
  | ceiling
deriving DecidableEq

/-- The `for inKey in inKeys` loop of `collapse` (lines 42-71).  State:
`inSize` is the running total of reported sizes, `wasGzip` the expected
encoding class (`none` before the first object), `acc` the bytes written to
the accumulation file so far.  Per object: add the reported size; classify;
on the first object record the class; on a class mismatch raise the
mixed-encoding exception (before appending, as in the code); otherwise append
the downloaded bytes (the 256 KiB chunking writes exactly the whole content)
and raise the size-ceiling exception if a positive `outMaxSize` is now
exceeded.  The code tests `isGzip(...) != wasGzip` and raises; the `if` here
is the equivalent test of the complement. -/
def collapseLoop (outMaxSize : Nat) : List S3Obj → Nat → Option Bool → List Nat → LoopOut
  | [], inSize, _, acc => LoopOut.ok inSize acc
  | k :: rest, inSize, wasGzip, acc =>
    let inSize2 := inSize + k.size
    let gk := isGzip k.content (some k.name)
    let was := wasGzip.getD gk
    if gk = was then
      let acc2 := acc ++ k.content
      if 0 < outMaxSize ∧ outMaxSize < acc2.length then LoopOut.ceiling
      else collapseLoop outMaxSize rest inSize2 (some was) acc2
    else
      if was then LoopOut.mixed k.name ("not gzip".toList) ("gzip".toList) acc
      else LoopOut.mixed k.name ("gzip".toList) ("not gzip".toList) acc

/-- Observable summary of one call of `collapse`:  the local accumulation
file is unconditionally created by `open(outFile, 'wb')` (line 31), so
`fileCreated` records that; `fileFinal` is its content on disk when the call
ends (`none` = removed); `uploads` the `(key, bytes)` pairs written to the
store; `deleted` the source keys deleted; `result` the exception raised, if
any. -/
structure CollapseRun where
  fileCreated : Bool
  fileFinal : Option (List Nat)
  uploads : List (List Char × List Nat)
  deleted : List (List Char)
  result : Option CollapseError
deriving DecidableEq

/-- Model of `collapse` (s3collapse.py lines 7-94).  Control flow:
open (create) the output file; list; on an empty listing close, remove the
file and return.  Otherwise run the loop; on its exceptions the file state is
as recorded in `LoopOut` (the mixed-encoding raise leaves the file on disk,
the ceiling branch removed it).  Then the local size check (line 76, file
left on disk on mismatch), the upload (line 84), the upload size check with a
`None` report treated as 0 (lines 85-88, file and uploaded key left in place
on mismatch), the deletion of every listed key, and the removal of the local
file.  The code tests the `!=` of each size check and raises; the `if` here
takes the equal branch first. -/
def collapse (bucket : List S3Obj) (putReport : Option Nat) (inPfx : List Char)
    (outKey : List Char) (outMaxSize : Nat) : CollapseRun :=
  let inKeys := listKeys bucket inPfx
  if inKeys.length = 0 then
    CollapseRun.mk true none [] [] none
  else
    match collapseLoop outMaxSize inKeys 0 none [] with
    | LoopOut.mixed n ft fts acc =>
      CollapseRun.mk true (some acc) [] [] (some (CollapseError.mixedEncoding n ft fts))
    | LoopOut.ceiling =>
      CollapseRun.mk true none [] [] (some (CollapseError.sizeCeiling outMaxSize))
    | LoopOut.ok inSize acc =>
      if inSize = acc.length then
        if putReport.getD 0 = acc.length then
          CollapseRun.mk true none [(outKey, acc)] (inKeys.map S3Obj.name) none
        else
          CollapseRun.mk true (some acc) [(outKey, acc)] []
            (some (CollapseError.sizeMismatchUpload (putReport.getD 0) acc.length))
      else
        CollapseRun.mk true (some acc) [] []
          (some (CollapseError.sizeMismatchLocal acc.length inSize))

/-- Default of the `outMaxSize` argument of `collapse` (line 7). -/
def defaultOutMaxSize : Nat := 2 * 1024 * 1024 * 1024

/-- Objects still present in the bucket after a run: those whose key was not
deleted. -/
def remainingObjects (bucket : List S3Obj) (run : CollapseRun) : List S3Obj :=
  bucket.filter (fun o => !(run.deleted.contains o.name))

/-!
Embedding of the bucket-range driver `collapse_s3` (s3collapse.py lines
175-237) and its helpers.

Python `datetime` values are modelled chronologically: `ord` is the proleptic
Gregorian ordinal of the date (`date.toordinal`, 1 = 0001-01-01) and `sec`
the second within the day.  Comparison of datetimes is comparison of the
total second count, and adding a `timedelta` of `n` seconds normalises the
seconds into the ordinal, which is exactly Python's chronological order and
arithmetic on valid values.  `strftime` field extraction recovers the
calendar date from the ordinal with the standard civil-from-days algorithm.
-/

/-- Python `datetime`: proleptic Gregorian day ordinal plus second of day. -/
structure Datetime where
  ord : Int
  sec : Nat
deriving DecidableEq

/-- Total seconds of a datetime; Python compares datetimes chronologically,
which on this representation is comparison of `toSecs`. -/
def toSecs (d : Datetime) : Int := d.ord * 86400 + d.sec

/-- Model of `dtm + timedelta(seconds = n)`: add and normalise. -/
def addSecs (d : Datetime) (n : Nat) : Datetime :=
  Datetime.mk (d.ord + ((d.sec + n) / 86400 : Nat)) ((d.sec + n) % 86400)

/-- Calendar date (year, month, day) of a proleptic Gregorian ordinal, the
standard era-based civil-from-days computation (what `strftime` reads out of
a Python `date`). -/
def civilFromOrd (ord : Int) : Int × Nat × Nat :=
  let z : Int := ord + 305
  let era : Int := (if 0 ≤ z then z else z - 146096) / 146097
  let doe : Int := z - era * 146097
  let yoe : Int := (doe - doe / 1460 + doe / 36524 - doe / 146096) / 365
  let y : Int := yoe + era * 400
  let doy : Int := doe - (365 * yoe + yoe / 4 - yoe / 100)
  let mp : Int := (5 * doy + 2) / 153
  let d : Int := doy - (153 * mp + 2) / 5 + 1
  let m : Int := if mp < 10 then mp + 3 else mp - 9
  (y + (if m ≤ 2 then 1 else 0), m.toNat, d.toNat)

/-- Decimal digits of `n` zero-padded on the left to width `w`, as `strftime`
prints date and time fields. -/
def padNum (w : Nat) (n : Nat) : List Char :=
  let ds := Nat.toDigits 10 n
  List.replicate (w - ds.length) '0' ++ ds

/-- The `'{:%Y-%m-%d}'.format(dtm)` string of a datetime. -/
def dayStr (dtm : Datetime) : List Char :=
  let c := civilFromOrd dtm.ord
  padNum 4 c.1.toNat ++ ('-' :: padNum 2 c.2.1) ++ ('-' :: padNum 2 c.2.2)

/-- Model of `dtm_to_s3_log(dtm, increment)` (lines 105-135): the timestamp
string for the given stepping, `none` for the `RuntimeError` of the
final `else`. -/
def dtm_to_s3_log (dtm : Datetime) (increment : List Char) : Option (List Char) :=
  let hh := dtm.sec / 3600
  let mi := dtm.sec % 3600 / 60
  let ss := dtm.sec % 60
  if increment = ['d'] then some (dayStr dtm)
  else if increment = ['H'] then some (dayStr dtm ++ ('-' :: padNum 2 hh))
  else if increment = ['M'] then some (dayStr dtm ++ ('-' :: padNum 2 hh) ++ ('-' :: padNum 2 mi))
  else if increment = ['S'] then
    some (dayStr dtm ++ ('-' :: padNum 2 hh) ++ ('-' :: padNum 2 mi) ++ ('-' :: padNum 2 ss))
  else if increment = ['m'] then
    some (padNum 4 (civilFromOrd dtm.ord).1.toNat ++ ('-' :: padNum 2 (civilFromOrd dtm.ord).2.1))
  else if increment = ['Y'] then some (padNum 4 (civilFromOrd dtm.ord).1.toNat)
  else none

/-- The `timeStep` selection of `collapse_s3` (lines 203-210), in seconds;
`none` for the `RuntimeError` of the `else` branch. -/
def incrementStep (increment : List Char) : Option Nat :=
  if increment = ['d'] then some 86400
  else if increment = ['H'] then some 3600
  else if increment = ['M'] then some 60
  else none

/-- Model of `os.path.join(s, '')`: appends the separator unless `s` already
ends with it or is empty. -/
def joinEmpty (s : List Char) : List Char :=
  if s = [] then s
  else if s.getLast? = some '/' then s
  else s ++ ['/']

/-- Yesterday one second before midnight, relative to `today`:
`datetime(today.year, today.month, today.day) - timedelta(seconds=1)`
(line 214). -/
def yesterdayEnd (today : Datetime) : Datetime := Datetime.mk (today.ord - 1) 86399

/-- Yesterday at midnight, relative to `today` (line 217). -/
def yesterdayStart (today : Datetime) : Datetime := Datetime.mk (today.ord - 1) 0

/-- One call of `collapse` made by the driver: the arguments it was invoked
with and the resulting run. -/
structure Invocation where
  inPfx : List Char
  outFile : List Char
  outKey : List Char
  run : CollapseRun
deriving DecidableEq

/-- Exceptions of the driver: the undefined-increment `RuntimeError`
(lines 210 and 133), the `NameError` raised by line 220 (its message
references the undefined name `DateEnd` — a typo for `dateEnd` — so Python
raises `NameError` while building the intended invalid-range message), and
an exception propagating out of a `collapse` call. -/
inductive DriverError where
  | invalidIncrement (increment : List Char)
  | nameError (name : List Char)
  | collapseFailed (e : CollapseError)
deriving DecidableEq

/-- The `while dateCurrentLogs <= dateEnd` loop of `collapse_s3`
(lines 230-237), compiled to bounded iteration: `fuel` is the number of
remaining iterations the caller allows; the loop condition is still tested
every round, so the caller only has to pass at least the exact iteration
count (which `collapse_s3` does).  Each round formats the current timestamp,
builds the input match string, the local file name and the output key, calls
`collapse` (with the default `outMaxSize`, since line 236 does not pass one)
and either records the invocation and continues, or stops with the exception
propagating out of the failed `collapse`. -/
def driveLoop (bucket : List S3Obj) (putReport : Option Nat)
    (s3inDir s3outDir outDir : List Char) (increment : List Char) (step : Nat)
    (dateEnd : Datetime) : Nat → Datetime → List Invocation × Option DriverError
  | 0, _ => ([], none)
  | fuel + 1, cur =>
    if toSecs cur ≤ toSecs dateEnd then
      match dtm_to_s3_log cur increment with
      | none => ([], some (DriverError.invalidIncrement increment))
      | some pfx =>
        let inPfx := s3inDir ++ pfx ++ ['-']
        let outFile := outDir ++ pfx ++ "_collapsed".toList
        let outKey := s3outDir ++ pfx ++ "_collapsed".toList
        let run := collapse bucket putReport inPfx outKey defaultOutMaxSize
        match run.result with
        | some e => ([Invocation.mk inPfx outFile outKey run], some (DriverError.collapseFailed e))
        | none =>
          let rest := driveLoop bucket putReport s3inDir s3outDir outDir increment step dateEnd
            fuel (addSecs cur step)
          (Invocation.mk inPfx outFile outKey run :: rest.1, rest.2)
    else ([], none)

/-- Exact iteration count of the driver loop: while `cur <= dateEnd` with a
positive `step` of seconds, starting at `dateStart`, the loop body runs
`(toSecs dateEnd - toSecs dateStart) / step + 1` times when the range is
non-empty (and the expression below is still an upper bound otherwise, which
is all `driveLoop` needs since it re-tests the condition). -/
def fuelFor (dateStart dateEnd : Datetime) (step : Nat) : Nat :=
  ((toSecs dateEnd - toSecs dateStart) / (step : Int)).toNat + 1

/-- Model of `collapse_s3` (lines 175-237).  Steps, in code order: select
`timeStep` from `increment` (raising on an unknown one); default `dateEnd`
to yesterday 23:59:59 and — only in that case — default a missing
`dateStart` to yesterday 00:00:00; the validation of line 219 (`dateStart`
not a datetime, or `dateEnd < dateStart`) raises, and because the message of
line 220 reads the undefined name `DateEnd`, what propagates is a
`NameError`; normalise the directories with `os.path.join(dir, '')` (the
local temporary directory is `/tmp/`); then the per-bucket loop.  The result
is the list of `collapse` invocations performed, plus the exception that
escaped, if any. -/
def collapse_s3 (bucket : List S3Obj) (putReport : Option Nat) (today : Datetime)
    (s3inDir : List Char) (s3outDir : Option (List Char))
    (dateStart dateEnd : Option Datetime) (increment : List Char) :
    List Invocation × Option DriverError :=
  match incrementStep increment with
  | none => ([], some (DriverError.invalidIncrement increment))
  | some step =>
    let dE : Datetime :=
      match dateEnd with
      | none => yesterdayEnd today
      | some e => e
    let dS : Option Datetime :=
      match dateStart with
      | some s => some s
      | none =>
        match dateEnd with
        | none => some (yesterdayStart today)
        | some _ => none
    match dS with
    | none => ([], some (DriverError.nameError "DateEnd".toList))
    | some dS =>
      if toSecs dE < toSecs dS then ([], some (DriverError.nameError "DateEnd".toList))
      else
        let inDir := joinEmpty s3inDir
        let outDirS3 :=
          match s3outDir with
          | none => inDir
          | some o => joinEmpty o
        driveLoop bucket putReport inDir outDirS3 ("/tmp/".toList) increment step dE
          (fuelFor dS dE step) dS

/-!
Concrete store contents and dates used by the witnesses and counterexamples
further below.  `day0` is 2015-01-01 (proleptic ordinal 735599).  `objHuge`
has just over the default 2 GiB ceiling of content, built with
`List.replicate` so that statements about it stay evaluable.
-/

/-- One-byte plain object with honest size. -/
def objA : S3Obj := S3Obj.mk ("a".toList) 1 [7]

/-- Two-byte plain object with honest size, key sharing the prefix of `objA`. -/
def objAB : S3Obj := S3Obj.mk ("ab".toList) 2 [8, 9]

/-- Object classified compressed: gzip magic bytes and a `.gz` key. -/
def objGz : S3Obj := S3Obj.mk ("a.gz".toList) 2 [0x1f, 0x8b]

/-- Object classified plain. -/
def objPlain : S3Obj := S3Obj.mk ("b".toList) 1 [0]

/-- Two-byte plain object used to breach a ceiling of 1. -/
def objPair : S3Obj := S3Obj.mk ("a".toList) 2 [5, 6]

/-- Object under the 2015-01-01 day prefix whose reported size is wrong. -/
def objDayBad : S3Obj := S3Obj.mk ("2015-01-01-x".toList) 5 [0]

/-- Compressed object under the 2015-01-01 day prefix reporting over 2 GiB. -/
def objBigGz : S3Obj := S3Obj.mk ("2015-01-01-a.gz".toList) (2 * 1024 * 1024 * 1024 + 10) [0x1f, 0x8b]

/-- Plain object under the 2015-01-01 day prefix reporting 2 GiB. -/
def objBigPlain : S3Obj := S3Obj.mk ("2015-01-01-b".toList) (2 * 1024 * 1024 * 1024) [0, 0]

/-- Plain object under the 2015-01-01 day prefix whose content is two bytes
over the default 2 GiB ceiling. -/
def objHuge : S3Obj :=
  S3Obj.mk ("2015-01-01-h".toList) 0 (0 :: 0 :: List.replicate (2 * 1024 * 1024 * 1024) 0)

/-- The date 2015-01-01, midnight. -/
def day0 : Datetime := Datetime.mk 735599 0

/-!
General lemmas about the embedding, shared by the claim theorems below.
-/

theorem concatContents_nil : concatContents [] = [] := rfl

theorem concatContents_cons (k : S3Obj) (os : List S3Obj) :
    concatContents (k :: os) = k.content ++ concatContents os := rfl

theorem length_concatContents (os : List S3Obj) :
    (concatContents os).length = (os.map (fun o => o.content.length)).sum := by
  induction os with
  | nil => rfl
  | cons k os ih => simp [concatContents_cons, ih]

/-- Runs of the download loop in which every object classifies to the same
encoding class `g` and the appended bytes never exceed a positive ceiling
complete normally, adding all reported sizes and appending all contents. -/
theorem collapseLoop_ok (M : Nat) (g : Bool) (os : List S3Obj) :
    ∀ (n : Nat) (acc : List Nat) (wg : Option Bool),
    (∀ o ∈ os, isGzip o.content (some o.name) = g) →
    (wg = none ∨ wg = some g) →
    (M = 0 ∨ acc.length + (concatContents os).length ≤ M) →
    collapseLoop M os n wg acc =
      LoopOut.ok (n + (os.map S3Obj.size).sum) (acc ++ concatContents os) := by
  induction os with
  | nil =>
    intro n acc wg _ _ _
    simp [collapseLoop, concatContents]
  | cons k os ih =>
    intro n acc wg hg hwg hM
    have hk : isGzip k.content (some k.name) = g := hg k (List.mem_cons_self _ _)
    have hos : ∀ o ∈ os, isGzip o.content (some o.name) = g :=
      fun o ho => hg o (List.mem_cons_of_mem _ ho)
    have hwas : wg.getD g = g := by
      rcases hwg with h | h <;> subst h <;> simp
    have hlen1 : (acc ++ k.content).length = acc.length + k.content.length :=
      List.length_append acc k.content
    have hlen2 : (concatContents (k :: os)).length =
        k.content.length + (concatContents os).length := by
      simp [concatContents_cons]
    have hnoceil : ¬ (0 < M ∧ M < (acc ++ k.content).length) := by
      rcases hM with h | h
      · omega
      · omega
    simp only [collapseLoop, hk, hwas, if_pos rfl, if_true, if_neg hnoceil, List.append_eq]
    rw [ih (n + k.size) (acc ++ k.content) (some g) hos (Or.inr rfl)
      (by rcases hM with h | h
          · exact Or.inl h
          · exact Or.inr (by omega))]
    have h1 : n + k.size + (os.map S3Obj.size).sum = n + ((k :: os).map S3Obj.size).sum := by
      simp [Nat.add_assoc]
    have h2 : (acc ++ k.content) ++ concatContents os = acc ++ concatContents (k :: os) := by
      rw [concatContents_cons, List.append_assoc]
    rw [h1, h2]

/-- Runs of the download loop that first process a block `pre` of objects of
class `g` within the ceiling and then meet an object of the other class stop
with the mixed-encoding exception, the file holding the bytes of `pre`.
`wg` may still be unset only if the offending object is not first. -/
theorem collapseLoop_mixed (M : Nat) (g : Bool) (off : S3Obj) (tl : List S3Obj)
    (pre : List S3Obj) :
    ∀ (n : Nat) (acc : List Nat) (wg : Option Bool),
    (∀ o ∈ pre, isGzip o.content (some o.name) = g) →
    (wg = some g ∨ (wg = none ∧ pre ≠ [])) →
    (M = 0 ∨ acc.length + (concatContents pre).length ≤ M) →
    isGzip off.content (some off.name) ≠ g →
    collapseLoop M (pre ++ off :: tl) n wg acc =
      LoopOut.mixed off.name
        (if g then ("not gzip".toList) else ("gzip".toList))
        (if g then ("gzip".toList) else ("not gzip".toList))
        (acc ++ concatContents pre) := by
  induction pre with
  | nil =>
    intro n acc wg hg hwg hM hoff
    rcases hwg with h | ⟨_, hne⟩
    · subst h
      simp only [List.nil_append, collapseLoop, Option.getD_some]
      rw [if_neg hoff]
      cases g <;> simp [concatContents]
    · exact absurd rfl hne
  | cons k pre ih =>
    intro n acc wg hg hwg hM hoff
    have hk : isGzip k.content (some k.name) = g := hg k (List.mem_cons_self _ _)
    have hpre : ∀ o ∈ pre, isGzip o.content (some o.name) = g :=
      fun o ho => hg o (List.mem_cons_of_mem _ ho)
    have hwas : wg.getD g = g := by
      rcases hwg with h | ⟨h, _⟩ <;> subst h <;> simp
    have hlen1 : (acc ++ k.content).length = acc.length + k.content.length :=
      List.length_append acc k.content
    have hlen2 : (concatContents (k :: pre)).length =
        k.content.length + (concatContents pre).length := by
      simp [concatContents_cons]
    have hnoceil : ¬ (0 < M ∧ M < (acc ++ k.content).length) := by
      rcases hM with h | h
      · omega
      · omega
    simp only [List.cons_append, collapseLoop, hk, hwas, if_pos rfl, if_true, if_neg hnoceil,
      List.append_eq]
    rw [ih (n + k.size) (acc ++ k.content) (some g) hpre (Or.inl rfl)
      (by rcases hM with h | h
          · exact Or.inl h
          · exact Or.inr (by omega)) hoff]
    rw [concatContents_cons, List.append_assoc]

/-- Runs of the download loop whose objects classify consistently to `g` but
whose appended bytes exceed a positive ceiling stop with the size-ceiling
exception. -/
theorem collapseLoop_ceiling (M : Nat) (g : Bool) (tl : List S3Obj) (pre : List S3Obj) :
    ∀ (n : Nat) (acc : List Nat) (wg : Option Bool),
    pre ≠ [] →
    (∀ o ∈ pre, isGzip o.content (some o.name) = g) →
    (wg = none ∨ wg = some g) →
    0 < M →
    M < acc.length + (concatContents pre).length →
    collapseLoop M (pre ++ tl) n wg acc = LoopOut.ceiling := by
  induction pre with
  | nil =>
    intro n acc wg hne _ _ _ _
    exact absurd rfl hne
  | cons k pre ih =>
    intro n acc wg _ hg hwg hMpos hM
    have hk : isGzip k.content (some k.name) = g := hg k (List.mem_cons_self _ _)
    have hpre : ∀ o ∈ pre, isGzip o.content (some o.name) = g :=
      fun o ho => hg o (List.mem_cons_of_mem _ ho)
    have hwas : wg.getD g = g := by
      rcases hwg with h | h <;> subst h <;> simp
    have hlen1 : (acc ++ k.content).length = acc.length + k.content.length :=
      List.length_append acc k.content
    have hlen2 : (concatContents (k :: pre)).length =
        k.content.length + (concatContents pre).length := by
      simp [concatContents_cons]
    simp only [List.cons_append, collapseLoop, hk, hwas, if_pos rfl, if_true, List.append_eq]
    by_cases hc : 0 < M ∧ M < (acc ++ k.content).length
    · rw [if_pos hc]
    · rw [if_neg hc]
      rcases List.eq_nil_or_concat pre with hnil | _
      · subst hnil
        exfalso
        simp [concatContents] at hM
        omega
      · have hne2 : pre ≠ [] := by
          rintro rfl
          simp [concatContents] at hM
          omega
        exact ih (n + k.size) (acc ++ k.content) (some g) hne2 hpre (Or.inr rfl) hMpos
          (by omega)

/-- Reported sizes sum to the concatenated length when every object's
reported size equals its content length. -/
theorem sum_sizes_eq_length (os : List S3Obj)
    (h : ∀ o ∈ os, o.size = o.content.length) :
    (os.map S3Obj.size).sum = (concatContents os).length := by
  rw [length_concatContents]
  induction os with
  | nil => rfl
  | cons k os ih =>
    simp only [List.map_cons, List.sum_cons]
    rw [h k (List.mem_cons_self _ _), ih (fun o ho => h o (List.mem_cons_of_mem _ ho))]

/-- Behaviour of `collapse` on an empty listing: the file is created, then
removed, and nothing else happens. -/
theorem collapse_empty_core (bucket : List S3Obj) (putReport : Option Nat)
    (inPfx outKey : List Char) (M : Nat)
    (hlist : listKeys bucket inPfx = []) :
    collapse bucket putReport inPfx outKey M = CollapseRun.mk true none [] [] none := by
  simp [collapse, hlist]

/-- Behaviour of `collapse` when a block `pre` of same-class objects within
the ceiling is followed by an object of the other class: the mixed-encoding
exception propagates, nothing is uploaded or deleted, and the accumulation
file is left on disk holding the bytes of `pre`. -/
theorem collapse_mixed_core (bucket : List S3Obj) (putReport : Option Nat)
    (inPfx outKey : List Char) (M : Nat) (pre : List S3Obj) (off : S3Obj)
    (tl : List S3Obj) (g : Bool)
    (hlist : listKeys bucket inPfx = pre ++ off :: tl)
    (hpre : pre ≠ [])
    (hg : ∀ o ∈ pre, isGzip o.content (some o.name) = g)
    (hM : M = 0 ∨ (concatContents pre).length ≤ M)
    (hoff : isGzip off.content (some off.name) ≠ g) :
    collapse bucket putReport inPfx outKey M =
      CollapseRun.mk true (some (concatContents pre)) [] []
        (some (CollapseError.mixedEncoding off.name
          (if g then ("not gzip".toList) else ("gzip".toList))
          (if g then ("gzip".toList) else ("not gzip".toList)))) := by
  have hne : ¬ ((pre ++ off :: tl).length = 0) := by simp
  have hloop := collapseLoop_mixed M g off tl pre 0 [] none hg (Or.inr ⟨rfl, hpre⟩)
    (by
      rcases hM with h | h
      · exact Or.inl h
      · exact Or.inr (by simpa using h)) hoff
  simp only [collapse, hlist, if_neg hne, hloop]
  simp

/-- Behaviour of `collapse` when the listing starts with a block `pre` of
same-class objects whose concatenated bytes exceed a positive ceiling: the
size-ceiling exception propagates, the file is removed, nothing is uploaded
or deleted. -/
theorem collapse_ceiling_core (bucket : List S3Obj) (putReport : Option Nat)
    (inPfx outKey : List Char) (M : Nat) (pre tl : List S3Obj) (g : Bool)
    (hlist : listKeys bucket inPfx = pre ++ tl)
    (hpre : pre ≠ [])
    (hg : ∀ o ∈ pre, isGzip o.content (some o.name) = g)
    (hMpos : 0 < M)
    (hM : M < (concatContents pre).length) :
    collapse bucket putReport inPfx outKey M =
      CollapseRun.mk true none [] [] (some (CollapseError.sizeCeiling M)) := by
  have hne : ¬ ((pre ++ tl).length = 0) := by
    rcases pre with _ | ⟨k, pre⟩
    · exact absurd rfl hpre
    · simp
  have hloop := collapseLoop_ceiling M g tl pre 0 [] none hpre hg (Or.inl rfl) hMpos
    (by simpa using hM)
  simp only [collapse, hlist, if_neg hne, hloop]

/-- Behaviour of `collapse` on a non-empty listing of same-class objects
whose contents fit under the ceiling and whose reported sizes are honest:
the concatenation is uploaded, and the run then either deletes all sources
(store reports the right size) or stops with the upload size-mismatch
exception. -/
theorem collapse_ok_core (bucket : List S3Obj) (putReport : Option Nat)
    (inPfx outKey : List Char) (M : Nat) (os : List S3Obj) (g : Bool)
    (hlist : listKeys bucket inPfx = os)
    (hne : os ≠ [])
    (hg : ∀ o ∈ os, isGzip o.content (some o.name) = g)
    (hM : M = 0 ∨ (concatContents os).length ≤ M)
    (hsz : ∀ o ∈ os, o.size = o.content.length) :
    collapse bucket putReport inPfx outKey M =
      (if putReport.getD 0 = (concatContents os).length then
        CollapseRun.mk true none [(outKey, concatContents os)] (os.map S3Obj.name) none
      else
        CollapseRun.mk true (some (concatContents os)) [(outKey, concatContents os)] []
          (some (CollapseError.sizeMismatchUpload (putReport.getD 0)
            (concatContents os).length))) := by
  have hne0 : ¬ (os.length = 0) := by
    rcases os with _ | ⟨k, os⟩
    · exact absurd rfl hne
    · simp
  have hloop := collapseLoop_ok M g os 0 [] none hg (Or.inl rfl)
    (by
      rcases hM with h | h
      · exact Or.inl h
      · exact Or.inr (by simpa using h))
  have hsum : (os.map S3Obj.size).sum = ([] ++ concatContents os).length := by
    rw [List.nil_append]
    exact sum_sizes_eq_length os hsz
  simp only [collapse, hlist, if_neg hne0, hloop, Nat.zero_add, if_pos hsum]
  simp

/-- Python slicing fact behind the `isGzip` extension test: the slice of the
last `t.length` characters equals `t` exactly when `t` is a suffix. -/
theorem drop_length_sub_eq_iff_suffix {α : Type} (s t : List α) :
    s.drop (s.length - t.length) = t ↔ t <:+ s := by
  constructor
  · intro h
    refine ⟨s.take (s.length - t.length), ?_⟩
    have h2 := List.take_append_drop (s.length - t.length) s
    rw [h] at h2
    exact h2
  · rintro ⟨u, rfl⟩
    rw [List.length_append, Nat.add_sub_cancel, List.drop_left]

/-- Adding seconds to a datetime adds them to its total second count. -/
theorem toSecs_addSecs (d : Datetime) (n : Nat) : toSecs (addSecs d n) = toSecs d + n := by
  simp only [toSecs, addSecs]
  omega

/-- Second additions to a datetime compose. -/
theorem addSecs_addSecs (d : Datetime) (a b : Nat) :
    addSecs (addSecs d a) b = addSecs d (a + b) := by
  simp only [addSecs, Datetime.mk.injEq]
  constructor
  · omega
  · omega

/-- Every invocation the driver loop performs calls `collapse` with the
invocation's own match string and output key and the default `outMaxSize`
(line 236 passes no `outMaxSize`). -/
theorem driveLoop_run_eq (bucket : List S3Obj) (putReport : Option Nat)
    (iD oD tD inc : List Char) (step : Nat) (dE : Datetime) :
    ∀ (fuel : Nat) (cur : Datetime) (inv : Invocation),
    inv ∈ (driveLoop bucket putReport iD oD tD inc step dE fuel cur).1 →
    inv.run = collapse bucket putReport inv.inPfx inv.outKey defaultOutMaxSize := by
  intro fuel
  induction fuel with
  | zero =>
    intro cur inv h
    simp [driveLoop] at h
  | succ fuel ih =>
    intro cur inv h
    simp only [driveLoop] at h
    split at h
    · split at h
      · simp at h
      · split at h
        · simp only [List.mem_singleton] at h
          subst h
          rfl
        · rcases List.mem_cons.mp h with h | h
          · subst h
            rfl
          · exact ih _ inv h
    · simp at h

/-!
Claim theorems.
-/

/-- Claim C1: in every `collapse` run, source objects are deleted only if the
store-reported size of the uploaded object (a missing report counting as 0)
equals the size of the uploaded bytes, i.e. of the local accumulation file at
upload time; in particular a wrong size report leaves every source in place. -/
theorem claim1_delete_only_after_verified (bucket : List S3Obj) (putReport : Option Nat)
    (inPfx outKey : List Char) (outMaxSize : Nat)
    (hdel : (collapse bucket putReport inPfx outKey outMaxSize).deleted ≠ []) :
    ∃ bs, (collapse bucket putReport inPfx outKey outMaxSize).uploads = [(outKey, bs)] ∧
      putReport.getD 0 = bs.length := by
  by_cases h0 : (listKeys bucket inPfx).length = 0
  · exact absurd (by simp [collapse, h0]) hdel
  · cases hloop : collapseLoop outMaxSize (listKeys bucket inPfx) 0 none [] with
    | ok n acc =>
      by_cases h1 : n = acc.length
      · by_cases h2 : putReport.getD 0 = acc.length
        · exact ⟨acc, by simp [collapse, h0, hloop, h1, h2], h2⟩
        · exact absurd (by simp [collapse, h0, hloop, h1, h2]) hdel
      · exact absurd (by simp [collapse, h0, hloop, h1]) hdel
    | mixed nm ft fts acc => exact absurd (by simp [collapse, h0, hloop]) hdel
    | ceiling => exact absurd (by simp [collapse, h0, hloop]) hdel

/-- Witness for C1: a run that does delete its source, with a correct size
report. -/
theorem claim1_witness :
    ∃ bs, (collapse [objA] (some 1) ("a".toList) ("k".toList) 0).uploads =
        [("k".toList, bs)] ∧ (some 1 : Option Nat).getD 0 = bs.length :=
  claim1_delete_only_after_verified [objA] (some 1) ("a".toList) ("k".toList) 0 (by decide)

/-- Claim C2: on a non-empty listing of same-class objects with honest
reported sizes whose cumulative size fits under the ceiling (or the ceiling
is disabled), `collapse` uploads to `outKey` exactly the concatenation of the
objects' bytes in listing order, whose length is the sum of the reported
sizes. -/
theorem claim2_concatenation (bucket : List S3Obj) (putReport : Option Nat)
    (inPfx outKey : List Char) (outMaxSize : Nat) (os : List S3Obj) (g : Bool)
    (hlist : listKeys bucket inPfx = os)
    (hne : os ≠ [])
    (hg : ∀ o ∈ os, isGzip o.content (some o.name) = g)
    (hsz : ∀ o ∈ os, o.size = o.content.length)
    (hM : outMaxSize = 0 ∨ (os.map S3Obj.size).sum ≤ outMaxSize) :
    (collapse bucket putReport inPfx outKey outMaxSize).uploads =
      [(outKey, concatContents os)] ∧
    (concatContents os).length = (os.map S3Obj.size).sum := by
  have hsum := sum_sizes_eq_length os hsz
  have hM2 : outMaxSize = 0 ∨ (concatContents os).length ≤ outMaxSize := by
    rcases hM with h | h
    · exact Or.inl h
    · exact Or.inr (hsum ▸ h)
  rw [collapse_ok_core bucket putReport inPfx outKey outMaxSize os g hlist hne hg hM2 hsz]
  refine ⟨?_, hsum.symm⟩
  split <;> rfl

/-- Witness for C2: two plain objects concatenated and uploaded. -/
theorem claim2_witness :
    (collapse [objA, objAB] (some 3) ("a".toList) ("k".toList) 100).uploads =
      [("k".toList, concatContents [objA, objAB])] ∧
    (concatContents [objA, objAB]).length = ([objA, objAB].map S3Obj.size).sum :=
  claim2_concatenation [objA, objAB] (some 3) ("a".toList) ("k".toList) 100 [objA, objAB]
    false (by decide) (by decide) (by decide) (by decide) (Or.inr (by decide))

/-- Counterexample to C3 as stated: with ceiling 1, a plain object followed
by a compressed one (so the second classifies differently from the first)
makes `collapse` fail with the size-ceiling error, not the mixed-encoding
error the claim promises. -/
theorem claim3_counterexample :
    isGzip objGz.content (some objGz.name) ≠ isGzip objPair.content (some objPair.name) ∧
    (collapse [objPair, objGz] none [] ("k".toList) 1).result =
      some (CollapseError.sizeCeiling 1) ∧
    (collapse [objPair, objGz] none [] ("k".toList) 1).result ≠
      some (CollapseError.mixedEncoding ("a.gz".toList) ("gzip".toList)
        ("not gzip".toList)) := by decide

/-- Claim C3 (amended): if an enumerated object after the first classifies
differently from the first object's class, and the appends before the
offending object stay within the ceiling (otherwise the size-ceiling check
aborts the run first), `collapse` fails with the mixed-encoding error naming
the offending key and both class labels, uploads nothing, deletes nothing,
and every object is still in the bucket. -/
theorem claim3_mixed_encoding_guard (bucket : List S3Obj) (putReport : Option Nat)
    (inPfx outKey : List Char) (M : Nat) (first : S3Obj) (pre : List S3Obj)
    (off : S3Obj) (tl : List S3Obj)
    (hlist : listKeys bucket inPfx = first :: (pre ++ off :: tl))
    (hpre : ∀ o ∈ pre, isGzip o.content (some o.name) = isGzip first.content (some first.name))
    (hoff : isGzip off.content (some off.name) ≠ isGzip first.content (some first.name))
    (hM : M = 0 ∨ (concatContents (first :: pre)).length ≤ M) :
    (collapse bucket putReport inPfx outKey M).result =
      some (CollapseError.mixedEncoding off.name
        (if isGzip first.content (some first.name) then ("not gzip".toList)
          else ("gzip".toList))
        (if isGzip first.content (some first.name) then ("gzip".toList)
          else ("not gzip".toList))) ∧
    (collapse bucket putReport inPfx outKey M).uploads = [] ∧
    (collapse bucket putReport inPfx outKey M).deleted = [] ∧
    remainingObjects bucket (collapse bucket putReport inPfx outKey M) = bucket := by
  have hg : ∀ o ∈ first :: pre,
      isGzip o.content (some o.name) = isGzip first.content (some first.name) := by
    intro o ho
    rcases List.mem_cons.mp ho with h | h
    · rw [h]
    · exact hpre o h
  have hcore := collapse_mixed_core bucket putReport inPfx outKey M (first :: pre) off tl
    (isGzip first.content (some first.name)) (by simpa using hlist) (by simp) hg hM hoff
  rw [hcore]
  refine ⟨rfl, rfl, rfl, ?_⟩
  simp [remainingObjects]

/-- Witness for C3 (amended): a compressed object followed by a plain one. -/
theorem claim3_witness :
    (collapse [objGz, objPlain] none [] ("k".toList) 0).deleted = [] ∧
    remainingObjects [objGz, objPlain] (collapse [objGz, objPlain] none [] ("k".toList) 0) =
      [objGz, objPlain] :=
  ⟨(claim3_mixed_encoding_guard [objGz, objPlain] none [] ("k".toList) 0 objGz [] objPlain []
      (by decide) (by decide) (by decide) (Or.inl rfl)).2.2.1,
   (claim3_mixed_encoding_guard [objGz, objPlain] none [] ("k".toList) 0 objGz [] objPlain []
      (by decide) (by decide) (by decide) (Or.inl rfl)).2.2.2⟩

/-- Counterexample to C4 as stated: on a mixed-encoding failure — one of the
exit paths the claim covers — the accumulation file is left on disk, not
removed. -/
theorem claim4_counterexample :
    (collapse [objGz, objPlain] none [] ("k".toList) 0).result =
      some (CollapseError.mixedEncoding ("b".toList) ("not gzip".toList) ("gzip".toList)) ∧
    (collapse [objGz, objPlain] none [] ("k".toList) 0).fileFinal ≠ none := by decide

/-- Claim C4 (amended): the accumulation file is removed before `collapse`
returns on the success path and before the error propagates on the
size-ceiling path; on the mixed-encoding path (and the size-mismatch paths)
it is left on disk. -/
theorem claim4_cleanup_paths (bucket : List S3Obj) (putReport : Option Nat)
    (inPfx outKey : List Char) (M : Nat) :
    (((collapse bucket putReport inPfx outKey M).result = none ∨
      (∃ m, (collapse bucket putReport inPfx outKey M).result =
        some (CollapseError.sizeCeiling m))) →
      (collapse bucket putReport inPfx outKey M).fileFinal = none) ∧
    (∀ nm ft fts, (collapse bucket putReport inPfx outKey M).result =
        some (CollapseError.mixedEncoding nm ft fts) →
      (collapse bucket putReport inPfx outKey M).fileFinal ≠ none) := by
  by_cases h0 : (listKeys bucket inPfx).length = 0
  · refine ⟨fun _ => by simp [collapse, h0], fun nm ft fts h => ?_⟩
    simp [collapse, h0] at h
  · cases hloop : collapseLoop M (listKeys bucket inPfx) 0 none [] with
    | ok n acc =>
      by_cases h1 : n = acc.length
      · by_cases h2 : putReport.getD 0 = acc.length
        · exact ⟨fun _ => by simp [collapse, h0, hloop, h1, h2],
            fun nm ft fts h => by simp [collapse, h0, hloop, h1, h2] at h⟩
        · refine ⟨fun h => ?_, fun nm ft fts h => by simp [collapse, h0, hloop, h1, h2] at h⟩
          rcases h with h | ⟨m, h⟩ <;> simp [collapse, h0, hloop, h1, h2] at h
      · refine ⟨fun h => ?_, fun nm ft fts h => by simp [collapse, h0, hloop, h1] at h⟩
        rcases h with h | ⟨m, h⟩ <;> simp [collapse, h0, hloop, h1] at h
    | mixed nm0 ft0 fts0 acc =>
      refine ⟨fun h => ?_, fun nm ft fts h => by simp [collapse, h0, hloop]⟩
      rcases h with h | ⟨m, h⟩ <;> simp [collapse, h0, hloop] at h
    | ceiling =>
      exact ⟨fun _ => by simp [collapse, h0, hloop],
        fun nm ft fts h => by simp [collapse, h0, hloop] at h⟩

/-- Witness for C4 (amended): a successful run ends with the file removed. -/
theorem claim4_witness :
    (collapse [objA] (some 1) ("a".toList) ("k".toList) 0).fileFinal = none :=
  (claim4_cleanup_paths [objA] (some 1) ("a".toList) ("k".toList) 0).1 (Or.inl (by decide))

/-- Claim C5: with a positive ceiling, if the listing starts with a block of
same-class objects whose appended bytes exceed the ceiling, `collapse` fails
with the size-ceiling error, the accumulation file is gone, nothing was
uploaded, no source was deleted, and the bucket is untouched. -/
theorem claim5_size_ceiling (bucket : List S3Obj) (putReport : Option Nat)
    (inPfx outKey : List Char) (M : Nat) (pre tl : List S3Obj) (g : Bool)
    (hMpos : 0 < M)
    (hlist : listKeys bucket inPfx = pre ++ tl)
    (hpre : pre ≠ [])
    (hg : ∀ o ∈ pre, isGzip o.content (some o.name) = g)
    (hM : M < (concatContents pre).length) :
    (collapse bucket putReport inPfx outKey M).result =
      some (CollapseError.sizeCeiling M) ∧
    (collapse bucket putReport inPfx outKey M).fileFinal = none ∧
    (collapse bucket putReport inPfx outKey M).uploads = [] ∧
    (collapse bucket putReport inPfx outKey M).deleted = [] ∧
    remainingObjects bucket (collapse bucket putReport inPfx outKey M) = bucket := by
  rw [collapse_ceiling_core bucket putReport inPfx outKey M pre tl g hlist hpre hg hMpos hM]
  refine ⟨rfl, rfl, rfl, rfl, ?_⟩
  simp [remainingObjects]

/-- Witness for C5: a two-byte object against a ceiling of 1. -/
theorem claim5_witness :
    (collapse [objPair] none ("a".toList) ("k".toList) 1).result =
      some (CollapseError.sizeCeiling 1) ∧
    (collapse [objPair] none ("a".toList) ("k".toList) 1).fileFinal = none ∧
    (collapse [objPair] none ("a".toList) ("k".toList) 1).uploads = [] ∧
    (collapse [objPair] none ("a".toList) ("k".toList) 1).deleted = [] ∧
    remainingObjects [objPair] (collapse [objPair] none ("a".toList) ("k".toList) 1) =
      [objPair] :=
  claim5_size_ceiling [objPair] none ("a".toList) ("k".toList) 1 [objPair] [] false
    (by decide) (by decide) (by decide) (by decide) (by decide)

/-- Counterexample to C6 as stated: even on an empty listing the local
accumulation file is created — `open(outFile, 'wb')` runs before the listing
is examined — so "creates no local file" is false (the file is removed again
before returning). -/
theorem claim6_counterexample :
    ¬ ((collapse [] none ("p".toList) ("k".toList) defaultOutMaxSize).fileCreated = false ∧
       (collapse [] none ("p".toList) ("k".toList) defaultOutMaxSize).fileFinal = none) := by
  decide

/-- Claim C6 (amended): on a prefix matching zero objects, `collapse` creates
the local accumulation file but removes it before returning; it leaves no
file behind, uploads nothing, deletes nothing and returns normally with zero
work done. -/
theorem claim6_empty_noop (bucket : List S3Obj) (putReport : Option Nat)
    (inPfx outKey : List Char) (M : Nat)
    (hlist : listKeys bucket inPfx = []) :
    collapse bucket putReport inPfx outKey M = CollapseRun.mk true none [] [] none :=
  collapse_empty_core bucket putReport inPfx outKey M hlist

/-- Witness for C6 (amended): a prefix matching nothing in a non-empty
bucket. -/
theorem claim6_witness :
    collapse [objA] none ("zz".toList) ("k".toList) 5 = CollapseRun.mk true none [] [] none :=
  claim6_empty_noop [objA] none ("zz".toList) ("k".toList) 5 (by decide)

/-- Claim C7: `isGzip` returns true exactly when the stream starts with the
bytes 0x1f 0x8b and, if a file name is supplied, it ends in ".gz" (no file
name means the extension check is treated as satisfied). -/
theorem claim7_isGzip_iff (content : List Nat) (fn : Option (List Char)) :
    isGzip content fn = true ↔
      ((∃ rest, content = 0x1f :: 0x8b :: rest) ∧
       (fn = none ∨ ∃ s, fn = some s ∧ (".gz".toList) <:+ s)) := by
  have hsuf : ∀ s : List Char, (s.drop (s.length - 3) = ['.', 'g', 'z']) ↔ ['.', 'g', 'z'] <:+ s := by
    intro s
    have h := drop_length_sub_eq_iff_suffix s ['.', 'g', 'z']
    simpa using h
  unfold isGzip
  cases content with
  | nil => simp
  | cons b1 tl =>
    cases tl with
    | nil => simp
    | cons b2 rest =>
      cases fn with
      | none => simp [List.cons.injEq]
      | some s =>
        simp [List.cons.injEq]
        intro _ _
        exact hsuf s

/-- Counterexample to C8 as stated: when the first bucket's collapse raises
(here: an object whose reported size disagrees with its one content byte),
the exception propagates and the driver performs one invocation, not three. -/
theorem claim8_counterexample :
    (collapse_s3 [objDayBad] none day0 [] (some ("o/".toList)) (some day0)
      (some (addSecs day0 172800)) ['d']).1.length ≠ 3 := by decide

/-- Claim C8 (amended): for start D and end D + 2 days at day granularity,
provided the first two collapses return normally, the driver performs exactly
three collapse invocations, in order, with match strings made of the input
directory, the YYYY-MM-DD string of D, D+1, D+2 and a trailing '-', and
output keys made of the output directory, the same day string and the
'_collapsed' suffix. -/
theorem claim8_three_invocations (bucket : List S3Obj) (putReport : Option Nat)
    (today : Datetime) (inDir outDir : List Char) (D : Datetime)
    (h0 : (collapse bucket putReport (joinEmpty inDir ++ dayStr D ++ ['-'])
      (joinEmpty outDir ++ dayStr D ++ ("_collapsed".toList)) defaultOutMaxSize).result = none)
    (h1 : (collapse bucket putReport (joinEmpty inDir ++ dayStr (addSecs D 86400) ++ ['-'])
      (joinEmpty outDir ++ dayStr (addSecs D 86400) ++ ("_collapsed".toList))
      defaultOutMaxSize).result = none) :
    (collapse_s3 bucket putReport today inDir (some outDir) (some D)
      (some (addSecs D 172800)) ['d']).1 =
      [Invocation.mk (joinEmpty inDir ++ dayStr D ++ ['-'])
        (("/tmp/".toList) ++ dayStr D ++ ("_collapsed".toList))
        (joinEmpty outDir ++ dayStr D ++ ("_collapsed".toList))
        (collapse bucket putReport (joinEmpty inDir ++ dayStr D ++ ['-'])
          (joinEmpty outDir ++ dayStr D ++ ("_collapsed".toList)) defaultOutMaxSize),
       Invocation.mk (joinEmpty inDir ++ dayStr (addSecs D 86400) ++ ['-'])
        (("/tmp/".toList) ++ dayStr (addSecs D 86400) ++ ("_collapsed".toList))
        (joinEmpty outDir ++ dayStr (addSecs D 86400) ++ ("_collapsed".toList))
        (collapse bucket putReport (joinEmpty inDir ++ dayStr (addSecs D 86400) ++ ['-'])
          (joinEmpty outDir ++ dayStr (addSecs D 86400) ++ ("_collapsed".toList))
          defaultOutMaxSize),
       Invocation.mk (joinEmpty inDir ++ dayStr (addSecs D 172800) ++ ['-'])
        (("/tmp/".toList) ++ dayStr (addSecs D 172800) ++ ("_collapsed".toList))
        (joinEmpty outDir ++ dayStr (addSecs D 172800) ++ ("_collapsed".toList))
        (collapse bucket putReport (joinEmpty inDir ++ dayStr (addSecs D 172800) ++ ['-'])
          (joinEmpty outDir ++ dayStr (addSecs D 172800) ++ ("_collapsed".toList))
          defaultOutMaxSize)] := by
  have hE := toSecs_addSecs D 172800
  have hD1 := toSecs_addSecs D 86400
  have hstep : incrementStep ['d'] = some 86400 := rfl
  have hfmt : ∀ c : Datetime, dtm_to_s3_log c ['d'] = some (dayStr c) := fun _ => rfl
  have hval : ¬ (toSecs (addSecs D 172800) < toSecs D) := by omega
  have hfuel : fuelFor D (addSecs D 172800) 86400 = ((0 + 1) + 1) + 1 := by
    unfold fuelFor
    rw [hE, add_sub_cancel_left]
    decide
  have hcomp : addSecs (addSecs D 86400) 86400 = addSecs D 172800 := by
    rw [addSecs_addSecs]
  have hg0 : (toSecs D ≤ toSecs (addSecs D 172800)) = True := eq_true (by omega)
  have hg1 : (toSecs (addSecs D 86400) ≤ toSecs (addSecs D 172800)) = True := eq_true (by omega)
  have hg2 : (toSecs (addSecs D 172800) ≤ toSecs (addSecs D 172800)) = True :=
    eq_true (le_refl _)
  simp only [collapse_s3, hstep, if_neg hval, hfuel]
  simp only [driveLoop, hcomp, hg0, hg1, hg2, if_true, hfmt, h0, h1]
  cases hR2 : (collapse bucket putReport (joinEmpty inDir ++ dayStr (addSecs D 172800) ++ ['-'])
      (joinEmpty outDir ++ dayStr (addSecs D 172800) ++ ("_collapsed".toList))
      defaultOutMaxSize).result with
  | none => simp [hR2]
  | some e => simp [hR2]

/-- Witness for C8 (amended): an empty bucket over 2015-01-01 to
2015-01-03. -/
theorem claim8_witness :
    (collapse_s3 [] none day0 ("logs".toList) (some ("out".toList)) (some day0)
      (some (addSecs day0 172800)) ['d']).1.length = 3 := by
  rw [claim8_three_invocations [] none day0 ("logs".toList) ("out".toList) day0
    (by decide) (by decide)]
  rfl

/-- Claim C9 (as the code behaves): a driver call with a valid increment
whose end date is before its start date stops before any store access or
collapse invocation — but what line 220 actually raises is the `NameError`
for the undefined name `DateEnd` (a typo for `dateEnd` in the message
expression), not the intended invalid-range exception. -/
theorem claim9_invalid_range (bucket : List S3Obj) (putReport : Option Nat)
    (today : Datetime) (inDir : List Char) (outDir : Option (List Char))
    (dS dE : Datetime) (inc : List Char)
    (hinc : incrementStep inc ≠ none)
    (hlt : toSecs dE < toSecs dS) :
    collapse_s3 bucket putReport today inDir outDir (some dS) (some dE) inc =
      ([], some (DriverError.nameError ("DateEnd".toList))) := by
  rcases h : incrementStep inc with _ | st
  · exact absurd h hinc
  · simp only [collapse_s3, h, if_pos hlt]

/-- Witness for C9: start 2015-01-02, end 2015-01-01, day increment. -/
theorem claim9_witness :
    collapse_s3 [] none day0 ("logs".toList) none (some (Datetime.mk 735600 0))
      (some day0) ['d'] = ([], some (DriverError.nameError ("DateEnd".toList))) :=
  claim9_invalid_range [] none day0 ("logs".toList) none (Datetime.mk 735600 0) day0 ['d']
    (by decide) (by decide)

/-- Counterexample to C10 as stated: a bucket whose combined reported size
exceeds 2 GiB but which mixes encodings fails with the mixed-encoding error,
not the size-ceiling error (the ceiling check watches accumulated bytes, and
the encoding guard fires first here). -/
theorem claim10_counterexample :
    ([objBigGz, objBigPlain].map S3Obj.size).sum > 2 * 1024 * 1024 * 1024 ∧
    (collapse_s3 [objBigGz, objBigPlain] none day0 [] (some ("o/".toList)) (some day0)
      (some day0) ['d']).2 =
      some (DriverError.collapseFailed (CollapseError.mixedEncoding ("2015-01-01-b".toList)
        ("not gzip".toList) ("gzip".toList))) ∧
    (collapse_s3 [objBigGz, objBigPlain] none day0 [] (some ("o/".toList)) (some day0)
      (some day0) ['d']).2 ≠
      some (DriverError.collapseFailed (CollapseError.sizeCeiling
        (2 * 1024 * 1024 * 1024))) := by decide

/-- Claim C10 (amended): every collapse the driver invokes runs with the
default 2 GiB output ceiling (the driver never passes `outMaxSize`); and on a
day-granularity range whose first bucket lists same-class objects
accumulating more than 2 GiB of content, the driver's collapse fails with the
size-ceiling error (a bucket may instead fail earlier, e.g. on mixed
encodings or a size mismatch). -/
theorem claim10_default_ceiling (bucket : List S3Obj) (putReport : Option Nat)
    (today : Datetime) (inDir : List Char) (outDir : Option (List Char))
    (dateStart dateEnd : Option Datetime) (inc : List Char) :
    (∀ inv ∈ (collapse_s3 bucket putReport today inDir outDir dateStart dateEnd inc).1,
      inv.run = collapse bucket putReport inv.inPfx inv.outKey (2 * 1024 * 1024 * 1024)) ∧
    (∀ (dS dE : Datetime) (pre tl : List S3Obj) (g : Bool),
      dateStart = some dS → dateEnd = some dE → inc = ['d'] →
      toSecs dS ≤ toSecs dE →
      listKeys bucket (joinEmpty inDir ++ dayStr dS ++ ['-']) = pre ++ tl →
      pre ≠ [] →
      (∀ o ∈ pre, isGzip o.content (some o.name) = g) →
      2 * 1024 * 1024 * 1024 < (concatContents pre).length →
      (collapse_s3 bucket putReport today inDir outDir dateStart dateEnd inc).2 =
        some (DriverError.collapseFailed
          (CollapseError.sizeCeiling (2 * 1024 * 1024 * 1024)))) := by
  constructor
  · intro inv hinv
    have hd : collapse bucket putReport inv.inPfx inv.outKey (2 * 1024 * 1024 * 1024) =
        collapse bucket putReport inv.inPfx inv.outKey defaultOutMaxSize := rfl
    rw [hd]
    rcases hstep : incrementStep inc with _ | st
    · simp [collapse_s3, hstep] at hinv
    · rcases dateStart with _ | dS
      · rcases dateEnd with _ | dE
        · by_cases hv : toSecs (yesterdayEnd today) < toSecs (yesterdayStart today)
          · simp [collapse_s3, hstep, hv] at hinv
          · simp only [collapse_s3, hstep] at hinv
            rw [if_neg hv] at hinv
            exact driveLoop_run_eq bucket putReport _ _ _ inc st _ _ _ inv hinv
        · simp [collapse_s3, hstep] at hinv
      · rcases dateEnd with _ | dE
        · by_cases hv : toSecs (yesterdayEnd today) < toSecs dS
          · simp [collapse_s3, hstep, hv] at hinv
          · simp only [collapse_s3, hstep] at hinv
            rw [if_neg hv] at hinv
            exact driveLoop_run_eq bucket putReport _ _ _ inc st _ _ _ inv hinv
        · by_cases hv : toSecs dE < toSecs dS
          · simp [collapse_s3, hstep, hv] at hinv
          · simp only [collapse_s3, hstep] at hinv
            rw [if_neg hv] at hinv
            exact driveLoop_run_eq bucket putReport _ _ _ inc st _ _ _ inv hinv
  · intro dS dE pre tl g hS hE hinc hle hlist hpre hg hlen
    subst hS
    subst hE
    subst hinc
    have hlen' : defaultOutMaxSize < (concatContents pre).length := hlen
    have hpos : 0 < defaultOutMaxSize := by decide
    have hrun : ∀ oK : List Char,
        collapse bucket putReport (joinEmpty inDir ++ dayStr dS ++ ['-']) oK
            defaultOutMaxSize =
          CollapseRun.mk true none [] []
            (some (CollapseError.sizeCeiling defaultOutMaxSize)) :=
      fun oK => collapse_ceiling_core bucket putReport _ oK defaultOutMaxSize pre tl g
        hlist hpre hg hpos hlen'
    have hstep : incrementStep ['d'] = some 86400 := rfl
    have hfmt : dtm_to_s3_log dS ['d'] = some (dayStr dS) := rfl
    have hnv : ¬ (toSecs dE < toSecs dS) := not_lt.mpr hle
    have hgate : (toSecs dS ≤ toSecs dE) = True := eq_true hle
    simp only [collapse_s3, hstep, if_neg hnv, fuelFor]
    simp only [driveLoop, hgate, if_true, hfmt, hrun]
    rfl

/-- Witness for C10 (amended): a single same-class object with just over
2 GiB of content under the 2015-01-01 prefix makes the driver fail with the
size-ceiling error. -/
theorem claim10_witness :
    (collapse_s3 [objHuge] none day0 [] none (some day0) (some day0) ['d']).2 =
      some (DriverError.collapseFailed
        (CollapseError.sizeCeiling (2 * 1024 * 1024 * 1024))) := by
  refine (claim10_default_ceiling [objHuge] none day0 [] none (some day0) (some day0)
    ['d']).2 day0 day0 [objHuge] [] false rfl rfl rfl (le_refl _) rfl (by decide)
    (by decide) ?_
  rw [concatContents_cons, concatContents_nil, List.append_nil,
    show objHuge.content = 0 :: 0 :: List.replicate (2 * 1024 * 1024 * 1024) 0 from rfl,
    List.length_cons, List.length_cons, List.length_replicate]
  omega
